import Mathlib

/-!
Verification of the scheduling / publication subsystem of the
Automated-Marketing repository (LinkedIn AutoMarketer).

The development shallowly embeds the relevant program fragments:

* the frontend display helper `formatDateTimeWithTimezone`
  (pages/Schedule.tsx), which forces UTC interpretation of the persisted
  `scheduled_datetime` string by appending a Z marker before parsing;
* the edit-modal reconstruction of (date, time) from a stored instant
  (components/SchedulePostModal.tsx), which parses with plain `new Date`;
* `LinkedInService.postContent` and `LinkedInService.getPostEngagement`
  (linkedinService.ts), embedded over an explicit model of the fetch
  boundary in an `Except` monad so that thrown exceptions are visible;
* the OAuth callback token-storage step (pages/LinkedInCallback.tsx);
* the backend `ScheduledPostRepository` operations `listDue`,
  `markPublished`, `markFailed`, and the `toAbsolute` time conversion,
  which are not part of the checked-in frontend sources and are therefore
  modelled from the specification text.

Machine integers of the source are modelled as `Int`/`Nat`; datetime
strings are modelled by their semantic content (wall-clock minutes since
the Unix epoch plus the presence of a trailing Z marker); JavaScript
`Date` parsing and `Intl` timezone rendering are modelled by explicit
civil-calendar arithmetic over an offset function per IANA zone.
-/

/-! ## Civil calendar arithmetic

Days/minutes since the Unix epoch 1970-01-01T00:00Z.  The algorithms are
the standard civil-from-days / days-from-civil computations, written for
floor division (Lean `Int` division by a positive divisor is floored),
which removes the era adjustments needed under truncating division. -/

/-- Civil date: year, month (1..12), day (1..31). -/
structure CivilDate where
  year : Int
  month : Int
  day : Int
deriving DecidableEq, Repr

/-- Wall-clock time of day: hour (0..23), minute (0..59). -/
structure ClockTime where
  hour : Int
  minute : Int
deriving DecidableEq, Repr

/-- Days since 1970-01-01 of the civil date (y, m, d), proleptic Gregorian. -/
def daysFromCivil (y m d : Int) : Int :=
  let y' := y - (if m ≤ 2 then 1 else 0)
  let era := y' / 400
  let yoe := y' - era * 400
  let mp := (m + 9) % 12
  let doy := (153 * mp + 2) / 5 + d - 1
  let doe := yoe * 365 + yoe / 4 - yoe / 100 + doy
  era * 146097 + doe - 719468

/-- Civil date of the day `z` counted from 1970-01-01. -/
def civilFromDays (z : Int) : CivilDate :=
  let z' := z + 719468
  let era := z' / 146097
  let doe := z' - era * 146097
  let yoe := (doe - doe / 1460 + doe / 36524 - doe / 146096) / 365
  let y := yoe + era * 400
  let doy := doe - (365 * yoe + yoe / 4 - yoe / 100)
  let mp := (5 * doy + 2) / 153
  let d := doy - (153 * mp + 2) / 5 + 1
  let m := mp + (if mp < 10 then 3 else -9)
  ⟨y + (if m ≤ 2 then 1 else 0), m, d⟩

/-- Day of week of epoch day `z`: 0 = Sunday … 6 = Saturday
(1970-01-01 was a Thursday, code 4). -/
def dayOfWeek (z : Int) : Int := (z + 4) % 7

/-- Minutes since the epoch of a civil date plus clock time, read as if UTC. -/
def minutesOfCivil (dte : CivilDate) (t : ClockTime) : Int :=
  daysFromCivil dte.year dte.month dte.day * 1440 + t.hour * 60 + t.minute

/-- Civil date and clock time obtained by reading `min` minutes since the
epoch as a UTC wall clock. -/
def civilOfMinutes (min : Int) : CivilDate × ClockTime :=
  let day := min / 1440
  let rem := min % 1440
  (civilFromDays day, ⟨rem / 60, rem % 60⟩)

/-! ## Timezones

The frontend offers a fixed list of IANA zones
(SchedulePostModal.tsx, the timezone Select).  A zone is modelled by its
UTC-offset function.  Asia/Kolkata has the fixed offset +05:30; the
zones with daylight saving get the statutory rules in terms of the UTC
instant (United States: second Sunday in March 07:00 UTC through first
Sunday in November 06:00 UTC for the Eastern zone, and the analogous
rule for the Pacific zone). -/

inductive TzName where
  | asiaKolkata
  | americaNewYork
  | americaLosAngeles
  | europeLondon
  | europeParis
  | asiaTokyo
  | australiaSydney
deriving DecidableEq, Repr

/-- Epoch day of the first Sunday of month `m` in year `y`. -/
def firstSundayOf (y m : Int) : Int :=
  let d1 := daysFromCivil y m 1
  d1 + (7 - dayOfWeek d1) % 7

/-- United States daylight saving predicate on a UTC instant (minutes since
the epoch): active from the second Sunday in March, 02:00 local standard
time, to the first Sunday in November, 02:00 local daylight time; given
here for a zone of standard offset `stdOff` minutes east of UTC. -/
def usDstActive (stdOff : Int) (utcMin : Int) : Bool :=
  let y := (civilFromDays (utcMin / 1440)).year
  let start := (firstSundayOf y 3 + 7) * 1440 + 120 - stdOff
  let stop := firstSundayOf y 11 * 1440 + 120 - (stdOff + 60)
  decide (start ≤ utcMin ∧ utcMin < stop)

/-- European Union daylight saving predicate on a UTC instant: from the
last Sunday in March 01:00 UTC to the last Sunday in October 01:00 UTC. -/
def euDstActive (utcMin : Int) : Bool :=
  let y := (civilFromDays (utcMin / 1440)).year
  let lastSunMar := firstSundayOf y 3 + (if firstSundayOf y 3 + 28 < daysFromCivil y 4 1 then 28 else 21)
  let lastSunOct := firstSundayOf y 10 + (if firstSundayOf y 10 + 28 < daysFromCivil y 11 1 then 28 else 21)
  decide (lastSunMar * 1440 + 60 ≤ utcMin ∧ utcMin < lastSunOct * 1440 + 60)

/-- Australian daylight saving predicate (New South Wales) on a UTC
instant: from the first Sunday in October 16:00 UTC (02:00 AEST) to the
first Sunday in April 16:00 UTC of the following summer. -/
def auDstActive (utcMin : Int) : Bool :=
  let y := (civilFromDays (utcMin / 1440)).year
  let startThisYear := firstSundayOf y 10 * 1440 + 960
  let stopThisYear := firstSundayOf y 4 * 1440 + 960
  decide (utcMin < stopThisYear ∨ startThisYear ≤ utcMin)

/-- UTC offset, in minutes east of UTC, of zone `tz` at the UTC instant
`utcMin` (minutes since the epoch). -/
def utcOffsetAt (tz : TzName) (utcMin : Int) : Int :=
  match tz with
  | .asiaKolkata => 330
  | .americaNewYork => if usDstActive (-300) utcMin then -240 else -300
  | .americaLosAngeles => if usDstActive (-480) utcMin then -420 else -480
  | .europeLondon => if euDstActive utcMin then 60 else 0
  | .europeParis => if euDstActive utcMin then 120 else 60
  | .asiaTokyo => 540
  | .australiaSydney => if auDstActive utcMin then 660 else 600

/-- Civil date and clock time shown for the UTC instant `utcMin` in zone
`tz` (the semantic content of `Date.toLocaleString` with a `timeZone`
option). -/
def localCivilAt (tz : TzName) (utcMin : Int) : CivilDate × ClockTime :=
  civilOfMinutes (utcMin + utcOffsetAt tz utcMin)

/-! ## JavaScript datetime-string parsing

A persisted `scheduled_datetime` string is modelled by its semantic
content: the wall-clock reading of its components as minutes since the
epoch (`naive`), and whether the string carries a trailing Z marker
(`endsWithZ`).  Per ECMAScript, `new Date(str)` interprets a date-time
string without an offset designator as local time of the host
environment, and with a trailing Z as UTC; the host environment is
modelled by its UTC offset `localOff` in minutes east of UTC. -/

structure DateTimeStr where
  naive : Int
  endsWithZ : Bool
deriving DecidableEq, Repr

/-- Parsing `new Date(str)` in a host environment of UTC offset
`localOff`: the resulting absolute instant in minutes since the epoch. -/
def jsDateParse (localOff : Int) (s : DateTimeStr) : Int :=
  if s.endsWithZ then s.naive else s.naive - localOff

/-! ## formatDateTimeWithTimezone (pages/Schedule.tsx)

The display helper.  Source:

  const utcDateTimeStr = datetimeStr.endsWith('Z') ? datetimeStr : `${datetimeStr}Z`;
  const utcDate = new Date(utcDateTimeStr);
  ... options with timeZone = timezone, fields per format ...
  return utcDate.toLocaleString('en-IN', options);

The locale rendering is modelled by its semantic content: the civil date
components (when the format requests the date) and the clock-time
components (when the format requests the time) of the instant in the
target zone. -/

inductive FmtKind where
  | date
  | time
  | datetime
deriving DecidableEq, Repr

/-- Semantic content of the rendered string: the date fields and time
fields actually included by the `Intl.DateTimeFormatOptions` built for
the requested format. -/
structure DisplayOut where
  dateOut : Option CivilDate
  timeOut : Option ClockTime
deriving DecidableEq, Repr

/-- Rendering of the absolute instant `utcMin` in zone `tz` under format
`fmt` (the `toLocaleString` call with the options block of the source). -/
def renderInTz (tz : TzName) (fmt : FmtKind) (utcMin : Int) : DisplayOut :=
  let c := localCivilAt tz utcMin
  { dateOut := if fmt = .date ∨ fmt = .datetime then some c.1 else none
    timeOut := if fmt = .time ∨ fmt = .datetime then some c.2 else none }

/-- Embedding of `formatDateTimeWithTimezone` from pages/Schedule.tsx.
`localOff` is the UTC offset of the host (browser) environment, which
`new Date` would consult for a string without an offset designator. -/
def formatDateTimeWithTimezone (localOff : Int) (datetimeStr : DateTimeStr)
    (timezone : TzName) (fmt : FmtKind) : DisplayOut :=
  let utcDateTimeStr : DateTimeStr :=
    if datetimeStr.endsWithZ then datetimeStr else { datetimeStr with endsWithZ := true }
  let utcDate := jsDateParse localOff utcDateTimeStr
  renderInTz timezone fmt utcDate

/-! ## The backend time conversion (spec-modelled)

The backend that converts the submitted (local date, local time,
timezone) triple into the stored UTC instant is not among the checked-in
sources (only the backend README is), so it is modelled from the
specification. -/

/-- Modelled from the spec: backend `TimeNormalizer.toAbsolute` (spec
section 4.1) — the backend source is not under the checked-in tree.
Interprets the wall-clock pair as occurring in the named timezone,
handling the UTC offset in effect at that date (daylight saving
included), and returns the equivalent absolute instant in minutes since
the epoch. -/
def toAbsolute (localDate : CivilDate) (localTime : ClockTime) (tz : TzName) : Int :=
  let localMin := minutesOfCivil localDate localTime
  let guess := utcOffsetAt tz localMin
  localMin - utcOffsetAt tz (localMin - guess)

/-! ## The edit-modal reconstruction (components/SchedulePostModal.tsx)

When an existing post is opened for editing, the modal reconstructs the
date and time fields from the stored instant:

  const utcDate = new Date(existingPost.scheduled_datetime);
  const timezoneToUse = existingPost.timezone || (the Asia/Kolkata default);
  setDate(utcDate.toLocaleDateString('sv-SE', { timeZone: timezoneToUse }));
  setTime(utcDate.toLocaleTimeString('sv-SE', { timeZone: timezoneToUse, hour12: false }).substring(0, 5));

Note the parse does NOT append a Z marker, unlike
`formatDateTimeWithTimezone`. -/

/-- The ScheduledPost record as the frontend receives it
(the TS interface in Schedule.tsx / SchedulePostModal.tsx). -/
structure ScheduledPostRec where
  id : String
  content : String
  scheduled_datetime : DateTimeStr
  status : String
  timezone : Option TzName
  error_message : Option String
deriving DecidableEq, Repr

/-- Embedding of the edit-modal reconstruction of (date, time) from the
stored instant, SchedulePostModal.tsx lines 56-60.  `localOff` is the
UTC offset of the host (browser) environment. -/
def editModalReconstruct (localOff : Int) (post : ScheduledPostRec) :
    CivilDate × ClockTime :=
  let utcDate := jsDateParse localOff post.scheduled_datetime
  let timezoneToUse := post.timezone.getD .asiaKolkata
  localCivilAt timezoneToUse utcDate

/-! ## Shared lemmas about the display helper -/

/-- The Z-forcing step makes the rendered output the rendering of the
naive reading taken as UTC, for every host-environment offset. -/
theorem format_forcesUTC (localOff : Int) (s : DateTimeStr) (tz : TzName)
    (fmt : FmtKind) :
    formatDateTimeWithTimezone localOff s tz fmt = renderInTz tz fmt s.naive := by
  unfold formatDateTimeWithTimezone jsDateParse
  cases h : s.endsWithZ <;> simp [h]

/-- C1. For every persisted scheduled_datetime string,
`formatDateTimeWithTimezone` interprets the instant as UTC before
converting to the target timezone, even when the string carries no
explicit UTC marker: a string not ending in Z has Z appended before
parsing, so the rendered local time is the UTC instant converted — it is
the rendering of the naive reading taken as UTC, and is independent of
the server/host local offset, hence never the string read as
server-local time. -/
theorem C1_display_forces_utc (localOff : Int) (s : DateTimeStr) (tz : TzName)
    (fmt : FmtKind) :
    formatDateTimeWithTimezone localOff s tz fmt = renderInTz tz fmt s.naive
    ∧ ∀ localOff' : Int,
        formatDateTimeWithTimezone localOff s tz fmt
          = formatDateTimeWithTimezone localOff' s tz fmt := by
  refine ⟨format_forcesUTC localOff s tz fmt, fun localOff' => ?_⟩
  rw [format_forcesUTC, format_forcesUTC]

/-- C6. A post scheduled for local 2025-12-25T09:00 in Asia/Kolkata is
stored as the UTC instant 2025-12-25T03:30:00Z; displaying that stored
instant (persisted without a Z marker) back in Asia/Kolkata yields local
time 09:00 on 2025-12-25, and displaying it in America/New_York yields
2025-12-24T22:30 — for every host-environment offset. -/
theorem C6_kolkata_scenario :
    toAbsolute ⟨2025, 12, 25⟩ ⟨9, 0⟩ .asiaKolkata
      = minutesOfCivil ⟨2025, 12, 25⟩ ⟨3, 30⟩
    ∧ (∀ localOff : Int,
        formatDateTimeWithTimezone localOff
          ⟨minutesOfCivil ⟨2025, 12, 25⟩ ⟨3, 30⟩, false⟩ .asiaKolkata .datetime
          = ⟨some ⟨2025, 12, 25⟩, some ⟨9, 0⟩⟩)
    ∧ (∀ localOff : Int,
        formatDateTimeWithTimezone localOff
          ⟨minutesOfCivil ⟨2025, 12, 25⟩ ⟨3, 30⟩, false⟩ .americaNewYork .datetime
          = ⟨some ⟨2025, 12, 24⟩, some ⟨22, 30⟩⟩) := by
  refine ⟨by decide, fun localOff => ?_, fun localOff => ?_⟩ <;>
    rw [format_forcesUTC] <;> decide

/-- C2 counter-evidence. The stored instant 2025-12-25T03:30 (persisted
without a Z marker, as the backend sends it) on a post whose timezone is
Asia/Kolkata, opened for editing in a browser whose local offset is
+05:30: the edit modal reconstructs (2025-12-25, 03:30), while the
display conversion that forces UTC renders (2025-12-25, 09:00), so the
edit-modal reconstruction is not the inverse of the scheduling
conversion — `new Date` read the naive string as browser-local time. -/
theorem C2_edit_modal_not_inverse :
    editModalReconstruct 330
        { id := "p1", content := "hello"
          scheduled_datetime := ⟨minutesOfCivil ⟨2025, 12, 25⟩ ⟨3, 30⟩, false⟩
          status := "pending", timezone := some .asiaKolkata
          error_message := none }
      = (⟨2025, 12, 25⟩, ⟨3, 30⟩)
    ∧ formatDateTimeWithTimezone 330
        ⟨minutesOfCivil ⟨2025, 12, 25⟩ ⟨3, 30⟩, false⟩ .asiaKolkata .datetime
        = ⟨some ⟨2025, 12, 25⟩, some ⟨9, 0⟩⟩
    ∧ (⟨3, 30⟩ : ClockTime) ≠ ⟨9, 0⟩ := by
  refine ⟨by decide, ?_, by decide⟩
  rw [format_forcesUTC]; decide

/-! ## ScheduledPostRepository (spec-modelled)

The backend repository is not among the checked-in sources (only the
backend README is); its contract is modelled from spec section 4.4.
The repository is a list of records in insertion order; the `seq` field
records the insertion index. -/

inductive PostStatus where
  | pending
  | published
  | failed
deriving DecidableEq, Repr

/-- Modelled from the spec: the persisted ScheduledPost record (spec
section 3) — the backend source is not under the checked-in tree. -/
structure RepoPost where
  id : Nat
  owner : Nat
  content : String
  scheduledInstant : Int
  status : PostStatus
  platformPostId : Option String
  errorMessage : Option String
  seq : Nat
deriving DecidableEq, Repr

/-- Modelled from the spec: `markPublished(id, platformPostId)` (spec
section 4.4), per-record action — the backend source is not under the
checked-in tree.  Transitions to `published` and records the remote
identifier only when the record is currently `pending`; otherwise a
no-op. -/
def markPublished (platformPostId : String) (p : RepoPost) : RepoPost :=
  if p.status = .pending then
    { p with status := .published, platformPostId := some platformPostId }
  else p

/-- Modelled from the spec: `markFailed(id, errorMessage)` (spec section
4.4), per-record action — the backend source is not under the checked-in
tree.  Transitions to `failed` and records the diagnostic only when the
record is currently `pending`; otherwise a no-op. -/
def markFailed (errorMessage : String) (p : RepoPost) : RepoPost :=
  if p.status = .pending then
    { p with status := .failed, errorMessage := some errorMessage }
  else p

/-- Due predicate of spec section 4.4: `pending` and scheduled at or
before `asOf`. -/
def isDue (asOf : Int) (p : RepoPost) : Bool :=
  decide (p.status = .pending ∧ p.scheduledInstant ≤ asOf)

/-- Stable insertion by `scheduledInstant`: the new element goes before
the first existing element whose instant is not strictly smaller. -/
def insertByInstant (p : RepoPost) : List RepoPost → List RepoPost
  | [] => [p]
  | q :: qs =>
      if q.scheduledInstant < p.scheduledInstant then q :: insertByInstant p qs
      else p :: q :: qs

/-- Stable insertion sort by `scheduledInstant`. -/
def sortByInstant : List RepoPost → List RepoPost
  | [] => []
  | p :: ps => insertByInstant p (sortByInstant ps)

/-- Modelled from the spec: `listDue(asOf)` (spec section 4.4) — the
backend source is not under the checked-in tree.  Returns all `pending`
records with `scheduledInstant <= asOf`, ordered by `scheduledInstant`
ascending, ties broken by insertion order. -/
def listDue (asOf : Int) (repo : List RepoPost) : List RepoPost :=
  sortByInstant (repo.filter (isDue asOf))

/-- Ascending-instant order with ties broken by insertion sequence. -/
def lexDue (a b : RepoPost) : Prop :=
  a.scheduledInstant < b.scheduledInstant
  ∨ (a.scheduledInstant = b.scheduledInstant ∧ a.seq < b.seq)

theorem mem_insertByInstant (a p : RepoPost) (l : List RepoPost) :
    a ∈ insertByInstant p l ↔ a = p ∨ a ∈ l := by
  induction l with
  | nil => simp [insertByInstant]
  | cons q qs ih =>
      unfold insertByInstant
      by_cases h : q.scheduledInstant < p.scheduledInstant
      · simp only [h, if_true, List.mem_cons, ih]
        tauto
      · simp only [h, if_false, List.mem_cons]

theorem mem_sortByInstant (a : RepoPost) (l : List RepoPost) :
    a ∈ sortByInstant l ↔ a ∈ l := by
  induction l with
  | nil => simp [sortByInstant]
  | cons p ps ih => simp [sortByInstant, mem_insertByInstant, ih]

theorem insertByInstant_sorted (p : RepoPost) (l : List RepoPost)
    (h : l.Pairwise (fun a b => a.scheduledInstant ≤ b.scheduledInstant)) :
    (insertByInstant p l).Pairwise
      (fun a b => a.scheduledInstant ≤ b.scheduledInstant) := by
  induction l with
  | nil => simp [insertByInstant]
  | cons q qs ih =>
      rcases List.pairwise_cons.mp h with ⟨hq, hqs⟩
      unfold insertByInstant
      by_cases hlt : q.scheduledInstant < p.scheduledInstant
      · simp only [hlt, if_true]
        refine List.pairwise_cons.mpr ⟨?_, ih hqs⟩
        intro a ha
        rcases (mem_insertByInstant a p qs).mp ha with rfl | ha
        · exact le_of_lt hlt
        · exact hq a ha
      · simp only [hlt, if_false]
        refine List.pairwise_cons.mpr ⟨?_, h⟩
        intro a ha
        rcases List.mem_cons.mp ha with rfl | ha
        · exact le_of_not_lt hlt
        · exact le_trans (le_of_not_lt hlt) (hq a ha)

theorem sortByInstant_sorted (l : List RepoPost) :
    (sortByInstant l).Pairwise
      (fun a b => a.scheduledInstant ≤ b.scheduledInstant) := by
  induction l with
  | nil => simp [sortByInstant]
  | cons p ps ih => exact insertByInstant_sorted p (sortByInstant ps) ih

theorem insertByInstant_lex (p : RepoPost) (l : List RepoPost)
    (h : l.Pairwise lexDue) (hseq : ∀ q ∈ l, p.seq < q.seq) :
    (insertByInstant p l).Pairwise lexDue := by
  induction l with
  | nil => simp [insertByInstant]
  | cons q qs ih =>
      rcases List.pairwise_cons.mp h with ⟨hq, hqs⟩
      unfold insertByInstant
      by_cases hlt : q.scheduledInstant < p.scheduledInstant
      · simp only [hlt, if_true]
        refine List.pairwise_cons.mpr
          ⟨?_, ih hqs (fun r hr => hseq r (List.mem_cons_of_mem q hr))⟩
        intro a ha
        rcases (mem_insertByInstant a p qs).mp ha with rfl | ha
        · exact Or.inl hlt
        · exact hq a ha
      · simp only [hlt, if_false]
        have hple : p.scheduledInstant ≤ q.scheduledInstant := le_of_not_lt hlt
        refine List.pairwise_cons.mpr ⟨?_, h⟩
        intro a ha
        rcases List.mem_cons.mp ha with rfl | ha
        · rcases lt_or_eq_of_le hple with h1 | h1
          · exact Or.inl h1
          · exact Or.inr ⟨h1, hseq a (List.mem_cons_self a qs)⟩
        · rcases hq a ha with h2 | ⟨h2, _⟩
          · exact Or.inl (lt_of_le_of_lt hple h2)
          · rcases lt_or_eq_of_le (hple.trans h2.le) with h3 | h3
            · exact Or.inl h3
            · exact Or.inr ⟨h3, hseq a (List.mem_cons_of_mem q ha)⟩

theorem sortByInstant_lex (l : List RepoPost)
    (h : l.Pairwise (fun a b => a.seq < b.seq)) :
    (sortByInstant l).Pairwise lexDue := by
  induction l with
  | nil => simp [sortByInstant]
  | cons p ps ih =>
      rcases List.pairwise_cons.mp h with ⟨hp, hps⟩
      exact insertByInstant_lex p (sortByInstant ps) (ih hps)
        (fun q hq => hp q ((mem_sortByInstant q ps).mp hq))

/-- C3. For every instant `asOf`, `listDue asOf` returns exactly the
records with status `pending` and `scheduledInstant <= asOf` — it never
returns a record with `scheduledInstant > asOf` and omits no pending
record however far in the past — and the returned sequence is ordered by
`scheduledInstant` ascending; when the repository list is in insertion
order (strictly increasing `seq`), ties are broken by insertion order. -/
theorem C3_listDue_exact (asOf : Int) (repo : List RepoPost) :
    (∀ p, p ∈ listDue asOf repo ↔
      (p ∈ repo ∧ p.status = .pending ∧ p.scheduledInstant ≤ asOf))
    ∧ (listDue asOf repo).Pairwise
        (fun a b => a.scheduledInstant ≤ b.scheduledInstant)
    ∧ (repo.Pairwise (fun a b => a.seq < b.seq) →
        (listDue asOf repo).Pairwise lexDue) := by
  refine ⟨fun p => ?_, sortByInstant_sorted _, fun h => ?_⟩
  · rw [listDue, mem_sortByInstant, List.mem_filter, isDue, decide_eq_true_eq]
  · exact sortByInstant_lex _ (h.filter (isDue asOf))

/-- Witness for C3 at a concrete repository: two pending posts due at
the same instant plus one future and one failed post; the result lists
exactly the two due posts, in insertion order. -/
theorem C3_listDue_exact_witness :
    listDue 100
        [⟨1, 0, "a", 50, .pending, none, none, 0⟩,
         ⟨2, 0, "b", 50, .pending, none, none, 1⟩,
         ⟨3, 0, "c", 200, .pending, none, none, 2⟩,
         ⟨4, 0, "d", 10, .failed, none, none, 3⟩]
      = [⟨1, 0, "a", 50, .pending, none, none, 0⟩,
         ⟨2, 0, "b", 50, .pending, none, none, 1⟩]
    ∧ (listDue 100
        [⟨1, 0, "a", 50, .pending, none, none, 0⟩,
         ⟨2, 0, "b", 50, .pending, none, none, 1⟩,
         ⟨3, 0, "c", 200, .pending, none, none, 2⟩,
         ⟨4, 0, "d", 10, .failed, none, none, 3⟩]).Pairwise lexDue := by
  constructor
  · decide
  · exact (C3_listDue_exact 100 _).2.2 (by decide)

/-- C4. `markPublished` and `markFailed` change a record only when it is
currently `pending`: on a `published` or `failed` record either call is
a no-op leaving the record unchanged; a double call does not corrupt
state, the terminal status `published` is reached at most once, and a
published record is never reverted. -/
theorem C4_mark_transitions (p : RepoPost) (pid pid' m m' : String) :
    (p.status ≠ .pending → markPublished pid p = p ∧ markFailed m p = p)
    ∧ markPublished pid' (markPublished pid p) = markPublished pid p
    ∧ markFailed m' (markFailed m p) = markFailed m p
    ∧ markFailed m' (markPublished pid p) = markPublished pid p
    ∧ markPublished pid' (markFailed m p) = markFailed m p
    ∧ ((markPublished pid p).status = .published ↔
        p.status = .pending ∨ p.status = .published) := by
  cases h : p.status <;>
    simp [markPublished, markFailed, h]

/-- Witness for C4 at a concrete record: a `published` record is left
unchanged by both calls. -/
theorem C4_mark_transitions_witness :
    markPublished "x2" (⟨7, 0, "c", 5, .published, some "x1", none, 0⟩ : RepoPost)
      = ⟨7, 0, "c", 5, .published, some "x1", none, 0⟩
    ∧ markFailed "boom" (⟨7, 0, "c", 5, .published, some "x1", none, 0⟩ : RepoPost)
      = ⟨7, 0, "c", 5, .published, some "x1", none, 0⟩ :=
  (C4_mark_transitions ⟨7, 0, "c", 5, .published, some "x1", none, 0⟩
    "x2" "x2" "boom" "boom").1 (by decide)

/-! ## LinkedInService (linkedinService.ts)

The service methods are embedded over an explicit model of the fetch
boundary.  A thrown / rejected JavaScript value is modelled by `JsError`
(`isError` distinguishes `instanceof Error`); the `try` body runs in the
`Except JsError` monad and the `catch` clause is the final `match`.  An
HTTP response carries its status, the text body (`response.text()`),
and the outcome of `response.json()`, which itself may throw. -/

structure JsError where
  isError : Bool
  message : String
deriving DecidableEq, Repr

/-- The mapping `error instanceof Error ? error.message : "Unknown error"`. -/
def jsErrorMessage (e : JsError) : String :=
  if e.isError then e.message else "Unknown error"

/-- An HTTP response as the service observes it: status code, text body,
and the (fallible) JSON decoding of the body. -/
structure HttpResponse (β : Type) where
  status : Nat
  bodyText : String
  json : Except JsError β
deriving Repr

/-- The check `response.ok` per the fetch specification: status in 200..299. -/
def respOk (status : Nat) : Bool :=
  decide (200 ≤ status ∧ status ≤ 299)

/-- JavaScript `x || dflt` on an optional string (absent and the empty
string are falsy). -/
def jsOrDefault (o : Option String) (dflt : String) : String :=
  match o with
  | some s => if s = "" then dflt else s
  | none => dflt

/-- The ugcPosts request payload built by `postContent` (flattened:
`shareCommentaryText` is `specificContent.shareCommentary.text`,
`media` the optional media entry added for an image). -/
structure SharePayload where
  author : String
  lifecycleState : String
  shareCommentaryText : String
  shareMediaCategory : String
  media : Option String
deriving DecidableEq, Repr

def buildSharePayload (memberUrn content : String) (imageUrl : Option String) :
    SharePayload :=
  { author := memberUrn
    lifecycleState := "PUBLISHED"
    shareCommentaryText := content
    shareMediaCategory := if imageUrl.isSome then "IMAGE" else "NONE"
    media := imageUrl }

/-- The recognized shape of the ugcPosts response body. -/
structure ShareResponseBody where
  id : Option String
deriving DecidableEq, Repr

/-- Return type of `LinkedInService.postContent`. -/
structure PostContentResult where
  success : Bool
  message : String
  linkedinPostId : Option String
deriving DecidableEq, Repr

/-- The `try` body of `LinkedInService.postContent`.  `net accessToken
payload` models `await fetch(baseUrl/ugcPosts, ...)` with the bearer
token and the JSON payload; a rejected fetch is `.error`. -/
def postContentTry
    (net : String → SharePayload → Except JsError (HttpResponse ShareResponseBody))
    (accessToken memberUrn content : String) (imageUrl : Option String) :
    Except JsError PostContentResult := do
  let payload := buildSharePayload memberUrn content imageUrl
  let response ← net accessToken payload
  if respOk response.status then do
    let responseData ← response.json
    let linkedinPostId := jsOrDefault responseData.id ""
    pure { success := true
           message := "Post published to LinkedIn successfully"
           linkedinPostId := some linkedinPostId }
  else
    pure { success := false
           message := "Failed to post to LinkedIn. Status: "
             ++ toString response.status ++ " - " ++ response.bodyText
           linkedinPostId := none }

/-- Embedding of `LinkedInService.postContent`: the `try` body with the
`catch` clause applied. -/
def postContent
    (net : String → SharePayload → Except JsError (HttpResponse ShareResponseBody))
    (accessToken memberUrn content : String) (imageUrl : Option String) :
    PostContentResult :=
  match postContentTry net accessToken memberUrn content imageUrl with
  | .ok r => r
  | .error e =>
      { success := false
        message := "Error posting to LinkedIn: " ++ jsErrorMessage e
        linkedinPostId := none }

/-- C10. For every input and every behaviour of the network boundary,
`postContent` never lets an exception escape: the `try` body is run and
the `catch` clause maps every thrown value — a rejected fetch, or a
`response.json()` failure on a successful response — to a result with
`success = false` and the error message embedded; when the body runs to
completion its result is returned unchanged. -/
theorem C10_postContent_total
    (net : String → SharePayload → Except JsError (HttpResponse ShareResponseBody))
    (accessToken memberUrn content : String) (imageUrl : Option String) :
    (∀ e : JsError,
      net accessToken (buildSharePayload memberUrn content imageUrl) = .error e →
        postContent net accessToken memberUrn content imageUrl =
          { success := false
            message := "Error posting to LinkedIn: " ++ jsErrorMessage e
            linkedinPostId := none })
    ∧ (∀ (resp : HttpResponse ShareResponseBody) (e : JsError),
        net accessToken (buildSharePayload memberUrn content imageUrl) = .ok resp →
        respOk resp.status = true → resp.json = .error e →
          postContent net accessToken memberUrn content imageUrl =
            { success := false
              message := "Error posting to LinkedIn: " ++ jsErrorMessage e
              linkedinPostId := none })
    ∧ (∀ r : PostContentResult,
        postContentTry net accessToken memberUrn content imageUrl = .ok r →
          postContent net accessToken memberUrn content imageUrl = r) := by
  refine ⟨fun e he => ?_, fun resp e hn ho hj => ?_, fun r hr => ?_⟩
  · simp [postContent, postContentTry, he, Bind.bind, Except.bind]
  · simp [postContent, postContentTry, hn, ho, hj, Bind.bind, Except.bind,
      Functor.map, Except.map]
  · simp [postContent, hr]

/-- Witness for C10 at a concrete boundary: a fetch rejected with a
TypeError whose message is "fetch failed". -/
theorem C10_postContent_total_witness :
    postContent (fun _ _ => .error ⟨true, "fetch failed"⟩) "tok" "urn:li:person:1"
        "hello" none
      = { success := false
          message := "Error posting to LinkedIn: " ++ jsErrorMessage ⟨true, "fetch failed"⟩
          linkedinPostId := none } :=
  (C10_postContent_total (fun _ _ => .error ⟨true, "fetch failed"⟩) "tok"
    "urn:li:person:1" "hello" none).1 ⟨true, "fetch failed"⟩ rfl

/-- C5. For every publish attempt whose HTTP response is not ok,
`postContent` returns a failure whose message is exactly the diagnostic
built from the status code and the response body, and consequently
contains the status code and the body verbatim (as infix substrings). -/
theorem C5_publish_failure_diagnostic
    (net : String → SharePayload → Except JsError (HttpResponse ShareResponseBody))
    (accessToken memberUrn content : String) (imageUrl : Option String)
    (resp : HttpResponse ShareResponseBody)
    (hn : net accessToken (buildSharePayload memberUrn content imageUrl) = .ok resp)
    (ho : respOk resp.status = false) :
    postContent net accessToken memberUrn content imageUrl =
      { success := false
        message := "Failed to post to LinkedIn. Status: "
          ++ toString resp.status ++ " - " ++ resp.bodyText
        linkedinPostId := none }
    ∧ List.IsInfix (toString resp.status).data
        (postContent net accessToken memberUrn content imageUrl).message.data
    ∧ List.IsInfix resp.bodyText.data
        (postContent net accessToken memberUrn content imageUrl).message.data := by
  have hmain : postContent net accessToken memberUrn content imageUrl =
      { success := false
        message := "Failed to post to LinkedIn. Status: "
          ++ toString resp.status ++ " - " ++ resp.bodyText
        linkedinPostId := none } := by
    simp [postContent, postContentTry, hn, ho, Bind.bind, Except.bind,
      pure, Except.pure]
  refine ⟨hmain, ?_, ?_⟩
  · rw [hmain]
    exact ⟨("Failed to post to LinkedIn. Status: ").data,
      (" - " ++ resp.bodyText).data, by simp [String.data_append]⟩
  · rw [hmain]
    exact ⟨("Failed to post to LinkedIn. Status: " ++ toString resp.status ++ " - ").data,
      [], by simp [String.data_append]⟩

/-- Witness for C5 at a concrete boundary: an HTTP 401 response with
body "unauthorized". -/
theorem C5_publish_failure_diagnostic_witness :
    postContent
        (fun _ _ => .ok ⟨401, "unauthorized", .error ⟨true, "no json"⟩⟩)
        "tok" "urn:li:person:1" "hello" none
      = { success := false
          message := "Failed to post to LinkedIn. Status: "
            ++ toString (401 : Nat) ++ " - " ++ "unauthorized"
          linkedinPostId := none } :=
  (C5_publish_failure_diagnostic
    (fun _ _ => .ok ⟨401, "unauthorized", .error ⟨true, "no json"⟩⟩)
    "tok" "urn:li:person:1" "hello" none
    ⟨401, "unauthorized", .error ⟨true, "no json"⟩⟩ rfl (by decide)).1

/-- C7. For every publish attempt whose HTTP response is ok and whose
body is recognized JSON carrying an id, `postContent` returns success
with the remote post identifier taken from the id field of the response
body. -/
theorem C7_publish_success_id
    (net : String → SharePayload → Except JsError (HttpResponse ShareResponseBody))
    (accessToken memberUrn content : String) (imageUrl : Option String)
    (resp : HttpResponse ShareResponseBody) (i : String)
    (hn : net accessToken (buildSharePayload memberUrn content imageUrl) = .ok resp)
    (ho : respOk resp.status = true) (hj : resp.json = .ok ⟨some i⟩) :
    postContent net accessToken memberUrn content imageUrl =
      { success := true
        message := "Post published to LinkedIn successfully"
        linkedinPostId := some i } := by
  have hid : jsOrDefault (some i) "" = i := by
    by_cases h : i = "" <;> simp [jsOrDefault, h]
  simp [postContent, postContentTry, hn, ho, hj, Bind.bind, Except.bind,
    Functor.map, Except.map, pure, Except.pure, hid]

/-- Witness for C7 at a concrete boundary: an HTTP 201 response whose
JSON body carries the id urn:li:share:42. -/
theorem C7_publish_success_id_witness :
    postContent
        (fun _ _ => .ok ⟨201, "", .ok ⟨some "urn:li:share:42"⟩⟩)
        "tok" "urn:li:person:1" "hello" none
      = { success := true
          message := "Post published to LinkedIn successfully"
          linkedinPostId := some "urn:li:share:42" } :=
  C7_publish_success_id
    (fun _ _ => .ok ⟨201, "", .ok ⟨some "urn:li:share:42"⟩⟩)
    "tok" "urn:li:person:1" "hello" none
    ⟨201, "", .ok ⟨some "urn:li:share:42"⟩⟩ "urn:li:share:42" rfl (by decide) rfl

/-! ## LinkedInService.getPostEngagement (linkedinService.ts) -/

/-- Engagement metric counts; `engagementRate` is exact (the source
initializes it to 0.0 and never recomputes it). -/
structure EngagementMetrics where
  views : Nat
  likes : Nat
  comments : Nat
  shares : Nat
  impressions : Nat
  engagementRate : ℚ
deriving DecidableEq, Repr

/-- The all-zero metrics object the source builds in each branch. -/
def zeroMetrics : EngagementMetrics :=
  { views := 0, likes := 0, comments := 0, shares := 0
    impressions := 0, engagementRate := 0 }

/-- The recognized shape of the socialActions response body. -/
structure LikesSummary where
  aggregatedTotalLikes : Option Nat
deriving DecidableEq, Repr

structure CommentsSummary where
  aggregatedTotalComments : Option Nat
deriving DecidableEq, Repr

structure SocialActionsBody where
  likesSummary : Option LikesSummary
  commentsSummary : Option CommentsSummary
deriving DecidableEq, Repr

/-- Return type of `LinkedInService.getPostEngagement`. -/
structure EngagementResult where
  success : Bool
  message : Option String
  metrics : Option EngagementMetrics
deriving DecidableEq, Repr

/-- The URN normalization at the top of `getPostEngagement`: prepend the
share marker when absent. -/
def normalizeShareUrn (postUrn : String) : String :=
  if postUrn.startsWith "urn:li:share:" then postUrn else "urn:li:share:" ++ postUrn

/-- The id extraction `postUrn.replace("urn:li:share:", "")`: after the
normalization above the urn is guaranteed to start with the marker, so
replacing its first occurrence equals dropping the 13-character marker. -/
def sharePostId (postUrn : String) : String :=
  (normalizeShareUrn postUrn).drop 13

/-- The `try` body of `LinkedInService.getPostEngagement`.
`net accessToken postId` models `await fetch(baseUrl/socialActions/encodedPostId, ...)`
with the bearer token, keyed by the extracted post id (the
percent-encoding is a bijection on ids and is absorbed into the
boundary function). -/
def getPostEngagementTry
    (net : String → String → Except JsError (HttpResponse SocialActionsBody))
    (accessToken postUrn : String) : Except JsError EngagementResult := do
  let postId := sharePostId postUrn
  let response ← net accessToken postId
  if respOk response.status then do
    let responseData ← response.json
    let likes := match responseData.likesSummary with
      | some s => s.aggregatedTotalLikes.getD 0
      | none => 0
    let comments := match responseData.commentsSummary with
      | some s => s.aggregatedTotalComments.getD 0
      | none => 0
    pure { success := true, message := none
           metrics := some { zeroMetrics with likes := likes, comments := comments } }
  else if response.status = 404 then
    pure { success := true, message := none, metrics := some zeroMetrics }
  else
    pure { success := false
           message := some ("Failed to fetch engagement metrics. Status: "
             ++ toString response.status ++ " - " ++ response.bodyText)
           metrics := some zeroMetrics }

/-- Embedding of `LinkedInService.getPostEngagement`: the `try` body
with the `catch` clause applied. -/
def getPostEngagement
    (net : String → String → Except JsError (HttpResponse SocialActionsBody))
    (accessToken postUrn : String) : EngagementResult :=
  match getPostEngagementTry net accessToken postUrn with
  | .ok r => r
  | .error e =>
      { success := false
        message := some ("Error fetching engagement metrics: " ++ jsErrorMessage e)
        metrics := some zeroMetrics }

/-- C8. For every engagement-metrics retrieval keyed by a remote post
identifier, a platform response with HTTP status 404 is treated as zero
metrics, not as an error: the call returns success with every metric
count — views, likes, comments, shares, impressions, engagement rate —
equal to zero. -/
theorem C8_engagement_404_zero
    (net : String → String → Except JsError (HttpResponse SocialActionsBody))
    (accessToken postUrn : String) (resp : HttpResponse SocialActionsBody)
    (hn : net accessToken (sharePostId postUrn) = .ok resp)
    (h404 : resp.status = 404) :
    getPostEngagement net accessToken postUrn =
      { success := true, message := none, metrics := some zeroMetrics }
    ∧ zeroMetrics.views = 0 ∧ zeroMetrics.likes = 0 ∧ zeroMetrics.comments = 0
    ∧ zeroMetrics.shares = 0 ∧ zeroMetrics.impressions = 0
    ∧ zeroMetrics.engagementRate = 0 := by
  have hok : respOk resp.status = false := by rw [h404]; decide
  refine ⟨?_, rfl, rfl, rfl, rfl, rfl, rfl⟩
  simp [getPostEngagement, getPostEngagementTry, hn, hok, h404, respOk,
    Bind.bind, Except.bind, pure, Except.pure]

/-- Witness for C8 at a concrete boundary: a 404 response for post id
"123". -/
theorem C8_engagement_404_zero_witness :
    getPostEngagement (fun _ _ => .ok ⟨404, "not found", .error ⟨true, "no json"⟩⟩)
        "tok" "123"
      = { success := true, message := none, metrics := some zeroMetrics } :=
  (C8_engagement_404_zero (fun _ _ => .ok ⟨404, "not found", .error ⟨true, "no json"⟩⟩)
    "tok" "123" ⟨404, "not found", .error ⟨true, "no json"⟩⟩ rfl rfl).1

/-! ## OAuth callback token storage (pages/LinkedInCallback.tsx)

After the code exchange the handler stores the received tokens:

  localStorage.setItem("linkedin_access_token", data.access_token);
  if (data.refresh_token) { localStorage.setItem("linkedin_refresh_token", data.refresh_token); }
  if (data.expires_in) {
    const expiryTime = Date.now() + (data.expires_in * 1000);
    localStorage.setItem("linkedin_expiry_time", expiryTime.toString());
  }

JavaScript truthiness guards both conditionals: an absent field, the
empty string, and the number zero all skip the store. -/

/-- The token response of the backend callback exchange. -/
structure TokenResponse where
  access_token : String
  refresh_token : Option String
  expires_in : Option Int
deriving DecidableEq, Repr

/-- The localStorage state written by the handler (absent key = `none`).
`now` is `Date.now()` in milliseconds. -/
structure StoredLinkedInAuth where
  accessToken : String
  refreshToken : Option String
  expiryTime : Option Int
deriving DecidableEq, Repr

/-- Embedding of the token-storage step of `handleLinkedInCallback`. -/
def storeLinkedInTokens (now : Int) (data : TokenResponse) : StoredLinkedInAuth :=
  { accessToken := data.access_token
    refreshToken := match data.refresh_token with
      | some s => if s = "" then none else some s
      | none => none
    expiryTime := match data.expires_in with
      | some n => if n = 0 then none else some (now + n * 1000)
      | none => none }

/-- C9 counterexample. A token response containing `expires_in` with
value 0 stores no expiry at all: the stored expiry is not
`Date.now() + expires_in * 1000`, because the truthiness guard
`if (data.expires_in)` skips the store for the number zero. -/
theorem C9_expiry_counterexample :
    (storeLinkedInTokens 1000 ⟨"tok", none, some 0⟩).expiryTime
      ≠ some (1000 + 0 * 1000) := by
  decide

/-- C9 (amended). When the OAuth callback exchange returns a token
response containing a nonzero `expires_in`, the stored credential expiry
instant equals the current time at processing plus `expires_in` seconds
(`Date.now()` plus `expires_in` times 1000 milliseconds). -/
theorem C9_expiry_computation (now : Int) (data : TokenResponse) (n : Int)
    (hin : data.expires_in = some n) (hnz : n ≠ 0) :
    (storeLinkedInTokens now data).expiryTime = some (now + n * 1000) := by
  simp [storeLinkedInTokens, hin, hnz]

/-- Witness for C9 at a concrete response: `expires_in` 3600 seconds at
`Date.now()` 5000 ms stores expiry 3605000 ms. -/
theorem C9_expiry_computation_witness :
    (storeLinkedInTokens 5000 ⟨"tok", some "r", some 3600⟩).expiryTime
      = some (5000 + 3600 * 1000) :=
  C9_expiry_computation 5000 ⟨"tok", some "r", some 3600⟩ 3600 rfl (by decide)
